import Mathlib

/-!
Verification of the personal-finance-uk calculation engine.

The repository sources available are the notebook callers; the underlying
utility modules (the band calculator, tax module, student-loan repayment
module, present-value module and loan amortization simulator) are modelled
here from the specification, using exact rational arithmetic.
-/

/-- Modelled from the spec: a Band is a range with a lower bound, an
optional upper bound (none meaning unbounded) and a marginal rate. -/
structure Band where
  lower : ℚ
  upper : Option ℚ
  rate : ℚ
deriving DecidableEq

/-- Modelled from the spec: the contribution of one band to the total,
namely rate times (min income upper minus lower) for a band whose lower
bound is exceeded by the income, and zero otherwise. -/
def bandAmount (income : ℚ) (b : Band) : ℚ :=
  if b.lower < income then
    b.rate * (min income (b.upper.getD income) - b.lower)
  else 0

/-- Modelled from the spec: the Band Calculator sums the contribution of
every band of the schedule against the given income. -/
def band_calculator (schedule : List Band) (income : ℚ) : ℚ :=
  (schedule.map (bandAmount income)).sum

/-- Modelled from the spec: schedule validity, checked at construction.
The bands must start at the given lower bound, be contiguous (no gaps or
overlaps), ascend, and end with an unbounded band. -/
def validFrom (lo : ℚ) : List Band → Bool
  | [] => false
  | b :: rest =>
    match b.upper, rest with
    | none, [] => b.lower == lo
    | some u, r :: rs => b.lower == lo && decide (lo ≤ u) && validFrom u (r :: rs)
    | _, _ => false

/-- Modelled from the spec: a Band Schedule is valid when it covers income
zero upward with contiguous ascending bands. -/
def validSchedule (schedule : List Band) : Bool :=
  validFrom 0 schedule

/-- Modelled from the spec: the full UK personal allowance. -/
def personalAllowance : ℚ := 12570

/-- Modelled from the spec: the high-income threshold above which the
personal allowance is tapered away. -/
def taperThreshold : ℚ := 100000

/-- Modelled from the spec: the personal allowance reduced by one pound
for every two pounds of income over the taper threshold, floored at
zero. -/
def effectiveAllowance (income : ℚ) : ℚ :=
  max 0 (personalAllowance - max 0 (income - taperThreshold) / 2)

/-- Modelled from the spec: the UK income-tax band schedule, parameterised
by the (possibly tapered) personal allowance: a zero-rate band up to the
allowance, then basic, higher and additional bands. -/
def incomeTaxSchedule (allowance : ℚ) : List Band :=
  [⟨0, some allowance, 0⟩,
   ⟨allowance, some 50270, 1/5⟩,
   ⟨50270, some 125140, 2/5⟩,
   ⟨125140, none, 9/20⟩]

/-- Modelled from the spec: income tax applies the allowance taper as a
pre-processing step on the schedule, then evaluates the Band Calculator. -/
def income_tax (gross_income : ℚ) : ℚ :=
  band_calculator (incomeTaxSchedule (effectiveAllowance gross_income)) gross_income

/-- Modelled from the spec: the National Insurance band schedule, with its
own thresholds and rates, independent of the income-tax schedule. -/
def nationalInsuranceSchedule : List Band :=
  [⟨0, some 12570, 0⟩,
   ⟨12570, some 50270, 3/25⟩,
   ⟨50270, none, 1/50⟩]

/-- Modelled from the spec: National Insurance evaluated by the Band
Calculator on its own schedule. -/
def national_insurance (gross_income : ℚ) : ℚ :=
  band_calculator nationalInsuranceSchedule gross_income

/-- Modelled from the spec: a Repayment Plan maps to a threshold (annual,
monetary) and a flat marginal repayment rate applied above it. -/
structure RepaymentPlan where
  threshold : ℚ
  rate : ℚ
deriving DecidableEq

/-- Modelled from the spec: the table of recognized repayment plans, keyed
by plan identifier. -/
def plans : List (String × RepaymentPlan) :=
  [("Plan 1", ⟨22015, 9/100⟩),
   ("Plan 2", ⟨27295, 9/100⟩),
   ("Plan 4", ⟨27660, 9/100⟩),
   ("Plan 5", ⟨25000, 9/100⟩),
   ("Postgraduate", ⟨21000, 6/100⟩)]

/-- Modelled from the spec: plan lookup by identifier. -/
def lookupPlan (plan : String) : Option RepaymentPlan :=
  plans.lookup plan

/-- Modelled from the spec: the error kinds surfaced by the loan module. -/
inductive LoanError where
  | UnknownPlanError (plan : String)
deriving DecidableEq

/-- Modelled from the spec: the statutory repayment is rate times the
excess of gross income over the plan threshold, zero at or below it;
an unrecognized plan identifier fails at lookup time. -/
def student_loan_repayment (gross_income : ℚ) (plan : String) : Except LoanError ℚ :=
  match lookupPlan plan with
  | none => .error (.UnknownPlanError plan)
  | some p => .ok (p.rate * max 0 (gross_income - p.threshold))

/-- Modelled from the spec: each element of the series divided by
(1 + discount rate) raised to its index, starting from index k. -/
def discountFrom (r : ℚ) (k : ℕ) : List ℚ → List ℚ
  | [] => []
  | x :: xs => x / (1 + r) ^ k :: discountFrom r (k + 1) xs

/-- Modelled from the spec: running cumulative totals of a series, on top
of an accumulator. -/
def runningTotals (acc : ℚ) : List ℚ → List ℚ
  | [] => []
  | x :: xs => (acc + x) :: runningTotals (acc + x) xs

/-- Modelled from the spec: the cumulative discounted series, element i
being the running sum of the first i + 1 values each divided by
(1 + discount rate) to the power of its index. -/
def net_present_value (series : List ℚ) (discount_rate : ℚ) : List ℚ :=
  runningTotals 0 (discountFrom discount_rate 0 series)

/-- Modelled from the spec: the states of a simulated loan scenario:
accruing, closed by full repayment, or closed by statutory write-off. -/
inductive LoanStatus where
  | accruing
  | paidOff
  | writtenOff
deriving DecidableEq

/-- Modelled from the spec: the mutable per-scenario Loan State, the
outstanding balance together with the scenario status. -/
structure ScenarioState where
  balance : ℚ
  status : LoanStatus
deriving DecidableEq

/-- Modelled from the spec: the configuration of a simulation run: plan
parameters, write-off horizon in months, an interest-rate source varying
by period and by current income, a projected income series, the
extra-repayment policy and a one-time instant repayment applied in the
active scenario at a caller-chosen period. -/
structure SimConfig where
  initialBalance : ℚ
  planThreshold : ℚ
  planRate : ℚ
  horizon : ℕ
  interestRate : ℕ → ℚ → ℚ
  income : ℕ → ℚ
  extraRepayment : ℕ → ℚ
  instantRepayment : ℚ
  instantPeriod : ℕ

/-- Modelled from the spec: the monthly statutory repayment for period t,
the plan rate applied to the excess of the projected annual income over
the annual plan threshold, divided by twelve. -/
def statutoryRepayment (cfg : SimConfig) (t : ℕ) : ℚ :=
  cfg.planRate * max 0 (cfg.income t - cfg.planThreshold) / 12

/-- Modelled from the spec: one row of the Simulation Record for one
scenario: the projected gross income, tax, National Insurance, the
interest accrued, the salary (statutory) and extra repayments actually
applied, the instant repayment actually applied (reported separately from
the two repayment columns), the closing balance and the status. -/
structure ScenarioRecord where
  gross : ℚ
  tax : ℚ
  nationalInsurance : ℚ
  interest : ℚ
  salaryRepayment : ℚ
  extraRepayment : ℚ
  instantApplied : ℚ
  balance : ℚ
  status : LoanStatus
deriving DecidableEq

/-- Modelled from the spec: step (a), the interest accrued on the opening
balance at the interest rate configured for period t and the income
projected for period t. -/
def stepInterest (cfg : SimConfig) (t : ℕ) (s : ScenarioState) : ℚ :=
  s.balance * cfg.interestRate t (cfg.income t)

/-- Modelled from the spec: the opening balance with the interest of the
period accrued, before any repayment. -/
def stepBal1 (cfg : SimConfig) (t : ℕ) (s : ScenarioState) : ℚ :=
  s.balance + stepInterest cfg t s

/-- Modelled from the spec: step (d), the extra repayment of the period,
present only in the active scenario. -/
def activeExtra (cfg : SimConfig) (active : Bool) (t : ℕ) : ℚ :=
  if active then cfg.extraRepayment t else 0

/-- Modelled from the spec: step (d), the instant repayment, made once at
the caller-chosen period and only in the active scenario. -/
def activeInstant (cfg : SimConfig) (active : Bool) (t : ℕ) : ℚ :=
  if active then (if t = cfg.instantPeriod then cfg.instantRepayment else 0) else 0

/-- Modelled from the spec: step (e), the statutory repayment actually
applied, capped at the outstanding balance with interest. -/
def stepSalaryApplied (cfg : SimConfig) (t : ℕ) (s : ScenarioState) : ℚ :=
  min (statutoryRepayment cfg t) (stepBal1 cfg t s)

/-- Modelled from the spec: step (e), the extra repayment actually
applied, capped at what remains of the balance. -/
def stepExtraApplied (cfg : SimConfig) (active : Bool) (t : ℕ) (s : ScenarioState) : ℚ :=
  min (activeExtra cfg active t) (stepBal1 cfg t s - stepSalaryApplied cfg t s)

/-- Modelled from the spec: step (e), the instant repayment actually
applied, capped at what remains of the balance, reported rather than
carried over or refunded. -/
def stepInstantApplied (cfg : SimConfig) (active : Bool) (t : ℕ) (s : ScenarioState) : ℚ :=
  min (activeInstant cfg active t)
    (stepBal1 cfg t s - stepSalaryApplied cfg t s - stepExtraApplied cfg active t s)

/-- Modelled from the spec: the closing balance of the period, the balance
with interest less every applied repayment; the caps make it impossible
for it to go below zero. -/
def stepNewBalance (cfg : SimConfig) (active : Bool) (t : ℕ) (s : ScenarioState) : ℚ :=
  stepBal1 cfg t s - stepSalaryApplied cfg t s - stepExtraApplied cfg active t s -
    stepInstantApplied cfg active t s

/-- Modelled from the spec: step (f), the state transition: paid off when
the balance reaches zero, written off when the period count reaches the
statutory horizon, otherwise still accruing. -/
def stepNewStatus (cfg : SimConfig) (active : Bool) (t : ℕ) (s : ScenarioState) : LoanStatus :=
  if stepNewBalance cfg active t s = 0 then .paidOff
  else if cfg.horizon ≤ t + 1 then .writtenOff
  else .accruing

/-- Modelled from the spec: one simulated period of one scenario. In
order: accrue interest on the opening balance, project income, compute
the statutory repayment, in the active scenario add the extra and instant
repayments, reduce the balance by the total repayment capped at the
outstanding amount, clamp at zero, and transition state on payoff or on
reaching the write-off horizon. A closed scenario is left unchanged with
an all-zero row. -/
def scenarioStep (cfg : SimConfig) (active : Bool) (t : ℕ) (s : ScenarioState) :
    ScenarioState × ScenarioRecord :=
  if s.status = .accruing then
    (⟨stepNewBalance cfg active t s, stepNewStatus cfg active t s⟩,
     ⟨cfg.income t, income_tax (cfg.income t), national_insurance (cfg.income t),
      stepInterest cfg t s, stepSalaryApplied cfg t s, stepExtraApplied cfg active t s,
      stepInstantApplied cfg active t s, stepNewBalance cfg active t s,
      stepNewStatus cfg active t s⟩)
  else
    (s, ⟨cfg.income t, income_tax (cfg.income t), national_insurance (cfg.income t),
         0, 0, 0, 0, s.balance, s.status⟩)

/-- Modelled from the spec: the scenario state at the start of period t,
obtained by iterating the period step from the initial balance. -/
def scenarioStateAt (cfg : SimConfig) (active : Bool) : ℕ → ScenarioState
  | 0 => ⟨cfg.initialBalance, .accruing⟩
  | t + 1 => (scenarioStep cfg active t (scenarioStateAt cfg active t)).1

/-- Modelled from the spec: the record row produced for period t of one
scenario. -/
def recordAt (cfg : SimConfig) (active : Bool) (t : ℕ) : ScenarioRecord :=
  (scenarioStep cfg active t (scenarioStateAt cfg active t)).2

/-- Modelled from the spec: one row of the returned series, holding the
active and the passive scenario computed in parallel. -/
structure SimRecord where
  active : ScenarioRecord
  passive : ScenarioRecord
deriving DecidableEq

/-- Modelled from the spec: the Simulator runs both scenarios for exactly
the write-off horizon number of periods and returns the per-period
records. -/
def simulate_repayment (cfg : SimConfig) : List SimRecord :=
  (List.range cfg.horizon).map (fun t => ⟨recordAt cfg true t, recordAt cfg false t⟩)

/-- Modelled from the spec: the total repayment the policy asks for in
period t of a scenario, before capping: statutory plus, in the active
scenario, the extra and instant repayments. -/
def periodRepaymentPolicy (cfg : SimConfig) (active : Bool) (t : ℕ) : ℚ :=
  statutoryRepayment cfg t + (if active then cfg.extraRepayment t else 0) +
    (if active then (if t = cfg.instantPeriod then cfg.instantRepayment else 0) else 0)

/-- Modelled from the spec: the end-to-end example configuration: initial
balance 45000, plan threshold 27295 per year, repayment rate 9 percent,
flat salary 30000 per year, annual interest 5.8 percent applied monthly,
no extra repayments, horizon 360 months. -/
def exampleConfig : SimConfig :=
  ⟨45000, 27295, 9/100, 360, fun _ _ => 58/1000/12, fun _ => 30000,
   fun _ => 0, 0, 0⟩

/-- C1 counterexample: in the end-to-end example the closing balance after
month 1 is exactly 45197.2125, which differs from the claimed value of
about 45197.46 by 0.2475, a quarter of a pound, far beyond rounding of
the stated formula; so the claimed closing balance is false. -/
theorem example_first_month_balance_counterexample :
    (recordAt exampleConfig true 0).balance = 3615777/80 ∧
    |3615777/80 - (4519746 : ℚ)/100| = 99/400 ∧
    ¬ |3615777/80 - (4519746 : ℚ)/100| < 1/200 := by
  refine ⟨?_, ?_, ?_⟩
  · norm_num [recordAt, scenarioStep, scenarioStateAt, statutoryRepayment, exampleConfig,
      stepNewBalance, stepBal1, stepInterest, stepSalaryApplied, stepExtraApplied,
      stepInstantApplied, activeExtra, activeInstant, stepNewStatus]
  · rw [abs_of_nonpos (by norm_num)]
    norm_num
  · rw [abs_of_nonpos (by norm_num)]
    norm_num

/-- C1 (amended): in the end-to-end example the first-month statutory
repayment is exactly 20.2875, about 20.29, and the closing balance after
month 1 is 45000 times (1 + 0.058 / 12) minus 20.2875, which is exactly
45197.2125, about 45197.21 (not 45197.46): interest accrues on the
opening balance before the repayment is subtracted. -/
theorem example_first_month_amended :
    (recordAt exampleConfig true 0).salaryRepayment = 1623/80 ∧
    |1623/80 - (2029 : ℚ)/100| < 1/200 ∧
    (recordAt exampleConfig true 0).balance = 45000 * (1 + 58/1000/12) - 1623/80 ∧
    (recordAt exampleConfig true 0).balance = 3615777/80 ∧
    |3615777/80 - (4519721 : ℚ)/100| < 1/200 := by
  refine ⟨?_, ?_, ?_, ?_, ?_⟩
  · norm_num [recordAt, scenarioStep, scenarioStateAt, statutoryRepayment, exampleConfig,
      stepNewBalance, stepBal1, stepInterest, stepSalaryApplied, stepExtraApplied,
      stepInstantApplied, activeExtra, activeInstant, stepNewStatus]
  · rw [abs_of_nonpos (by norm_num)]
    norm_num
  · norm_num [recordAt, scenarioStep, scenarioStateAt, statutoryRepayment, exampleConfig,
      stepNewBalance, stepBal1, stepInterest, stepSalaryApplied, stepExtraApplied,
      stepInstantApplied, activeExtra, activeInstant, stepNewStatus]
  · norm_num [recordAt, scenarioStep, scenarioStateAt, statutoryRepayment, exampleConfig,
      stepNewBalance, stepBal1, stepInterest, stepSalaryApplied, stepExtraApplied,
      stepInstantApplied, activeExtra, activeInstant, stepNewStatus]
  · rw [abs_of_nonneg (by norm_num)]
    norm_num

lemma runningTotals_length (acc : ℚ) (l : List ℚ) :
    (runningTotals acc l).length = l.length := by
  induction l generalizing acc with
  | nil => rfl
  | cons x xs ih => simp [runningTotals, ih]

lemma discountFrom_length (r : ℚ) (k : ℕ) (l : List ℚ) :
    (discountFrom r k l).length = l.length := by
  induction l generalizing k with
  | nil => rfl
  | cons x xs ih => simp [discountFrom, ih]

lemma runningTotals_getD (l : List ℚ) (acc : ℚ) (i : ℕ) (hi : i < l.length) :
    (runningTotals acc l).getD i 0 = acc + ∑ j in Finset.range (i + 1), l.getD j 0 := by
  induction l generalizing acc i with
  | nil => simp at hi
  | cons x xs ih =>
    cases i with
    | zero => simp [runningTotals]
    | succ i =>
      have hi2 : i < xs.length := by simpa using hi
      rw [Finset.sum_range_succ']
      simp only [runningTotals, List.getD_cons_succ, List.getD_cons_zero]
      rw [ih (acc + x) i hi2]
      ring

lemma discountFrom_getD (r : ℚ) (l : List ℚ) (k i : ℕ) (hi : i < l.length) :
    (discountFrom r k l).getD i 0 = l.getD i 0 / (1 + r) ^ (k + i) := by
  induction l generalizing k i with
  | nil => simp at hi
  | cons x xs ih =>
    cases i with
    | zero => simp [discountFrom]
    | succ i =>
      have hi2 : i < xs.length := by simpa using hi
      simp only [discountFrom, List.getD_cons_succ]
      rw [ih (k + 1) i hi2]
      ring_nf

/-- C2: net_present_value returns a series of the same length whose
element i is the running sum of the first i + 1 input values, value j
divided by (1 + r) to the power j; with discount rate zero the output is
exactly the running cumulative sum of the undiscounted input. -/
theorem net_present_value_cumulative (series : List ℚ) (r : ℚ) (i : ℕ)
    (hi : i < series.length) :
    (net_present_value series r).length = series.length ∧
    (net_present_value series r).getD i 0 =
      ∑ j in Finset.range (i + 1), series.getD j 0 / (1 + r) ^ j ∧
    (net_present_value series 0).getD i 0 =
      ∑ j in Finset.range (i + 1), series.getD j 0 := by
  have hlen : ∀ r' : ℚ, (net_present_value series r').length = series.length := by
    intro r'
    rw [net_present_value, runningTotals_length, discountFrom_length]
  have hget : ∀ r' : ℚ, (net_present_value series r').getD i 0 =
      ∑ j in Finset.range (i + 1), series.getD j 0 / (1 + r') ^ j := by
    intro r'
    have hi2 : i < (discountFrom r' 0 series).length := by
      rw [discountFrom_length]; exact hi
    rw [net_present_value, runningTotals_getD _ _ _ hi2, zero_add]
    refine Finset.sum_congr rfl ?_
    intro j hj
    have hj2 : j < series.length := lt_of_lt_of_le (Finset.mem_range.mp hj) hi
    rw [discountFrom_getD r' series 0 j hj2, Nat.zero_add]
  refine ⟨hlen r, hget r, ?_⟩
  rw [hget 0]
  refine Finset.sum_congr rfl ?_
  intro j _
  norm_num

/-- C2 witness: the cumulative discounted series of a concrete input at a
concrete discount rate, checked against the claimed formula. -/
theorem net_present_value_cumulative_witness :
    (2 : ℕ) < ([3, 6, 9] : List ℚ).length ∧
    (net_present_value [3, 6, 9] 1).length = ([3, 6, 9] : List ℚ).length ∧
    (net_present_value [3, 6, 9] 1).getD 2 0 =
      ∑ j in Finset.range 3, ([3, 6, 9] : List ℚ).getD j 0 / (1 + 1) ^ j ∧
    (net_present_value [3, 6, 9] 0).getD 2 0 =
      ∑ j in Finset.range 3, ([3, 6, 9] : List ℚ).getD j 0 := by
  have h := net_present_value_cumulative [3, 6, 9] 1 2 (by norm_num)
  exact ⟨by norm_num, h.1, h.2.1, h.2.2⟩

/-- Modelled from the spec: whether a loan-module call succeeded rather
than failing with an error. -/
def repaymentOk : Except LoanError ℚ → Bool
  | .ok _ => true
  | .error _ => false

/-- C6: for every recognized plan and non-negative income the statutory
repayment equals the plan rate times the excess of income over the
threshold, floored at zero; it is exactly zero at or below the threshold
and linear with slope equal to the plan rate beyond it. -/
theorem student_loan_repayment_formula (name : String) (p : RepaymentPlan)
    (inc d : ℚ) (hp : lookupPlan name = some p) (hinc : 0 ≤ inc) (hd : 0 ≤ d) :
    student_loan_repayment inc name = .ok (p.rate * max 0 (inc - p.threshold)) ∧
    (inc ≤ p.threshold → student_loan_repayment inc name = .ok 0) ∧
    student_loan_repayment (p.threshold + d) name = .ok (p.rate * d) := by
  refine ⟨?_, ?_, ?_⟩
  · simp [student_loan_repayment, hp]
  · intro hle
    have hmax : max 0 (inc - p.threshold) = 0 := by
      rw [max_eq_left]
      linarith
    simp [student_loan_repayment, hp, hmax]
  · have hmax : max 0 (p.threshold + d - p.threshold) = d := by
      rw [max_eq_right] <;> linarith
    simp [student_loan_repayment, hp, hmax]
    exact Or.inl hd

/-- C6 witness: Plan 2 at concrete incomes, below and above the
threshold. -/
theorem student_loan_repayment_formula_witness :
    lookupPlan "Plan 2" = some ⟨27295, 9/100⟩ ∧
    student_loan_repayment 20000 "Plan 2" = .ok 0 ∧
    student_loan_repayment (27295 + 1000) "Plan 2" = .ok ((9 : ℚ)/100 * 1000) := by
  have hl : lookupPlan "Plan 2" = some ⟨27295, 9/100⟩ := by
    simp [lookupPlan, plans, List.lookup]
  have h := student_loan_repayment_formula "Plan 2" ⟨27295, 9/100⟩ 20000 1000 hl
    (by norm_num) (by norm_num)
  exact ⟨hl, h.2.1 (by norm_num), h.2.2⟩

/-- C9: a loan-module call fails exactly when the plan identifier is not
recognized, and then the error is the UnknownPlanError naming that
identifier; for every recognized plan no error is raised, whatever the
income. -/
theorem student_loan_repayment_error_iff (inc : ℚ) (name : String) :
    (repaymentOk (student_loan_repayment inc name) = false ↔ lookupPlan name = none) ∧
    (lookupPlan name = none →
      student_loan_repayment inc name = .error (.UnknownPlanError name)) := by
  cases h : lookupPlan name <;>
    simp [student_loan_repayment, h, repaymentOk]

/-- C9 witness: a concrete unrecognized identifier fails with the lookup
error while a recognized one succeeds. -/
theorem student_loan_repayment_error_iff_witness :
    student_loan_repayment 5 "Plan 9" = .error (.UnknownPlanError "Plan 9") ∧
    repaymentOk (student_loan_repayment 5 "Plan 2") = true := by
  constructor
  · have h := student_loan_repayment_error_iff 5 "Plan 9"
    exact h.2 (by simp [lookupPlan, plans, List.lookup])
  · have h := (student_loan_repayment_error_iff 5 "Plan 2").1
    have hl : lookupPlan "Plan 2" = some ⟨27295, 9/100⟩ := by
      simp [lookupPlan, plans, List.lookup]
    cases hok : repaymentOk (student_loan_repayment 5 "Plan 2") with
    | true => rfl
    | false =>
      rw [hl] at h
      simp [hok] at h

/-- C7: income tax applies the personal-allowance taper as a
pre-processing step on the band schedule: the effective allowance is the
full allowance less one pound for every two pounds of income over the
taper threshold, floored at zero; at the threshold it equals the full
allowance and at threshold plus twice the allowance it is exactly
zero. -/
theorem income_tax_taper (x : ℚ) :
    income_tax x = band_calculator (incomeTaxSchedule (effectiveAllowance x)) x ∧
    effectiveAllowance x = max 0 (personalAllowance - max 0 (x - taperThreshold) / 2) ∧
    effectiveAllowance taperThreshold = personalAllowance ∧
    effectiveAllowance (taperThreshold + 2 * personalAllowance) = 0 := by
  refine ⟨rfl, rfl, ?_, ?_⟩
  · norm_num [effectiveAllowance, personalAllowance, taperThreshold]
  · norm_num [effectiveAllowance, personalAllowance, taperThreshold]

lemma effectiveAllowance_nonneg (x : ℚ) : 0 ≤ effectiveAllowance x :=
  le_max_left 0 _

lemma effectiveAllowance_le (x : ℚ) : effectiveAllowance x ≤ 12570 := by
  rw [effectiveAllowance, personalAllowance, taperThreshold]
  rw [max_le_iff]
  constructor
  · norm_num
  · have h : 0 ≤ max 0 (x - 100000) / 2 := by positivity
    linarith

lemma ite_band_bounded (lo hi x rate : ℚ) (h : lo ≤ hi) :
    (if lo < x then rate * (min x hi - lo) else 0) = rate * max 0 (min x hi - lo) := by
  rcases lt_or_le lo x with hx | hx
  · rw [if_pos hx, max_eq_right]
    have h2 : lo ≤ min x hi := le_min (le_of_lt hx) h
    linarith
  · rw [if_neg (not_lt.mpr hx), max_eq_left, mul_zero]
    have h2 : min x hi ≤ x := min_le_left x hi
    linarith

lemma ite_band_unbounded (lo x rate : ℚ) :
    (if lo < x then rate * (x - lo) else 0) = rate * max 0 (x - lo) := by
  rcases lt_or_le lo x with hx | hx
  · rw [if_pos hx, max_eq_right]
    linarith
  · rw [if_neg (not_lt.mpr hx), max_eq_left, mul_zero]
    linarith

lemma income_tax_eq (x : ℚ) :
    income_tax x =
      1/5 * max 0 (min x 50270 - effectiveAllowance x) +
      (2/5 * max 0 (min x 125140 - 50270) + 9/20 * max 0 (x - 125140)) := by
  rw [income_tax, band_calculator, incomeTaxSchedule]
  simp only [List.map, List.sum_cons, List.sum_nil, bandAmount, Option.getD]
  rw [ite_band_bounded _ _ _ _ (le_trans (effectiveAllowance_le x) (by norm_num))]
  rw [ite_band_bounded _ _ _ _ (by norm_num : (50270:ℚ) ≤ 125140)]
  rw [min_self, ite_band_unbounded]
  have h1 : (if (0:ℚ) < x then 0 * (min x (effectiveAllowance x) - 0) else 0) = 0 := by
    rcases lt_or_le 0 x with hx | hx
    · rw [if_pos hx, zero_mul]
    · rw [if_neg (not_lt.mpr hx)]
  ring_nf
  ring_nf at h1
  rw [h1]
  ring

lemma effectiveAllowance_antitone {x1 x2 : ℚ} (h : x1 ≤ x2) :
    effectiveAllowance x2 ≤ effectiveAllowance x1 := by
  rw [effectiveAllowance, effectiveAllowance]
  have hinner : max 0 (x1 - taperThreshold) ≤ max 0 (x2 - taperThreshold) :=
    max_le_max le_rfl (by linarith)
  exact max_le_max le_rfl (by linarith)

lemma income_tax_mono {x1 x2 : ℚ} (h : x1 ≤ x2) : income_tax x1 ≤ income_tax x2 := by
  rw [income_tax_eq, income_tax_eq]
  have ha : effectiveAllowance x2 ≤ effectiveAllowance x1 := effectiveAllowance_antitone h
  have hm1 : min x1 (50270:ℚ) ≤ min x2 50270 := min_le_min h le_rfl
  have hm2 : min x1 (125140:ℚ) ≤ min x2 125140 := min_le_min h le_rfl
  have t1 : max 0 (min x1 50270 - effectiveAllowance x1) ≤
      max 0 (min x2 50270 - effectiveAllowance x2) :=
    max_le_max le_rfl (by linarith)
  have t2 : max 0 (min x1 (125140:ℚ) - 50270) ≤ max 0 (min x2 125140 - 50270) :=
    max_le_max le_rfl (by linarith)
  have t3 : max 0 (x1 - (125140:ℚ)) ≤ max 0 (x2 - 125140) :=
    max_le_max le_rfl (by linarith)
  nlinarith [t1, t2, t3]

lemma validFrom_lower_bound (s : List Band) (lo : ℚ) (hv : validFrom lo s = true) :
    ∀ b ∈ s, lo ≤ b.lower := by
  induction s generalizing lo with
  | nil => simp [validFrom] at hv
  | cons b rest ih =>
    obtain ⟨bl, bu, br⟩ := b
    cases bu with
    | none =>
      cases rest with
      | nil =>
        simp only [validFrom, beq_iff_eq] at hv
        intro c hc
        simp only [List.mem_singleton] at hc
        subst hc
        exact le_of_eq hv.symm
      | cons r rs => simp [validFrom] at hv
    | some u =>
      cases rest with
      | nil => simp [validFrom] at hv
      | cons r rs =>
        simp only [validFrom, Bool.and_eq_true, beq_iff_eq,
          decide_eq_true_eq] at hv
        obtain ⟨⟨hbl, hlu⟩, hrest⟩ := hv
        intro c hc
        rcases List.mem_cons.mp hc with hc | hc
        · subst hc
          exact le_of_eq hbl.symm
        · exact le_trans hlu (ih u hrest c hc)

/-- C8: income tax is monotonically non-decreasing in income under the
fixed (tapered) schedule, and the Band Calculator returns zero at income
zero for every valid Band Schedule. -/
theorem income_tax_monotone_and_zero (x1 x2 : ℚ) (s : List Band)
    (h0 : 0 ≤ x1) (h12 : x1 < x2) (hs : validSchedule s = true) :
    income_tax x1 ≤ income_tax x2 ∧ band_calculator s 0 = 0 := by
  constructor
  · exact income_tax_mono (le_of_lt h12)
  · rw [band_calculator]
    apply List.sum_eq_zero
    intro y hy
    rw [List.mem_map] at hy
    obtain ⟨b, hb, rfl⟩ := hy
    have hlb : (0:ℚ) ≤ b.lower := validFrom_lower_bound s 0 hs b hb
    rw [bandAmount, if_neg (not_lt.mpr hlb)]

/-- C8 witness: concrete incomes below and inside the taper region, and
the concrete income-tax schedule at the full allowance as the valid
schedule. -/
theorem income_tax_monotone_and_zero_witness :
    income_tax 10000 ≤ income_tax 110000 ∧
    band_calculator (incomeTaxSchedule 12570) 0 = 0 := by
  apply income_tax_monotone_and_zero 10000 110000 (incomeTaxSchedule 12570)
    (by norm_num) (by norm_num)
  simp [validSchedule, validFrom, incomeTaxSchedule]
  norm_num

lemma scenarioStep_closed (cfg : SimConfig) (a : Bool) (t : ℕ) (s : ScenarioState)
    (h : s.status ≠ .accruing) :
    scenarioStep cfg a t s =
      (s, ⟨cfg.income t, income_tax (cfg.income t), national_insurance (cfg.income t),
           0, 0, 0, 0, s.balance, s.status⟩) := by
  rw [scenarioStep, if_neg h]

lemma scenarioStep_accruing (cfg : SimConfig) (a : Bool) (t : ℕ) (s : ScenarioState)
    (h : s.status = .accruing) :
    scenarioStep cfg a t s =
      (⟨stepNewBalance cfg a t s, stepNewStatus cfg a t s⟩,
       ⟨cfg.income t, income_tax (cfg.income t), national_insurance (cfg.income t),
        stepInterest cfg t s, stepSalaryApplied cfg t s, stepExtraApplied cfg a t s,
        stepInstantApplied cfg a t s, stepNewBalance cfg a t s,
        stepNewStatus cfg a t s⟩) := by
  rw [scenarioStep, if_pos h]

lemma stepNewBalance_nonneg (cfg : SimConfig) (a : Bool) (t : ℕ) (s : ScenarioState)
    (h : 0 ≤ stepBal1 cfg t s) : 0 ≤ stepNewBalance cfg a t s := by
  rw [stepNewBalance]
  have h1 : stepSalaryApplied cfg t s ≤ stepBal1 cfg t s := min_le_right _ _
  have h2 : stepExtraApplied cfg a t s ≤ stepBal1 cfg t s - stepSalaryApplied cfg t s :=
    min_le_right _ _
  have h3 : stepInstantApplied cfg a t s ≤
      stepBal1 cfg t s - stepSalaryApplied cfg t s - stepExtraApplied cfg a t s :=
    min_le_right _ _
  linarith

lemma stepBal1_nonneg (cfg : SimConfig) (t : ℕ) (s : ScenarioState)
    (hb : 0 ≤ s.balance) (hr : -1 ≤ cfg.interestRate t (cfg.income t)) :
    0 ≤ stepBal1 cfg t s := by
  rw [stepBal1, stepInterest]
  nlinarith [mul_nonneg hb (by linarith : (0:ℚ) ≤ 1 + cfg.interestRate t (cfg.income t))]

lemma scenarioStateAt_balance_nonneg (cfg : SimConfig) (a : Bool)
    (h0 : 0 ≤ cfg.initialBalance)
    (hr : ∀ u, -1 ≤ cfg.interestRate u (cfg.income u)) :
    ∀ t, 0 ≤ (scenarioStateAt cfg a t).balance := by
  intro t
  induction t with
  | zero => exact h0
  | succ t ih =>
    rw [scenarioStateAt]
    by_cases hs : (scenarioStateAt cfg a t).status = .accruing
    · rw [scenarioStep_accruing cfg a t _ hs]
      exact stepNewBalance_nonneg cfg a t _ (stepBal1_nonneg cfg t _ ih (hr t))
    · rw [scenarioStep_closed cfg a t _ hs]
      exact ih

lemma scenarioStateAt_absorb (cfg : SimConfig) (a : Bool) (t : ℕ)
    (h : (scenarioStateAt cfg a t).status ≠ .accruing) :
    ∀ k, scenarioStateAt cfg a (t + k) = scenarioStateAt cfg a t := by
  intro k
  induction k with
  | zero => rfl
  | succ k ih =>
    have hstep : scenarioStateAt cfg a (t + (k + 1)) =
        (scenarioStep cfg a (t + k) (scenarioStateAt cfg a (t + k))).1 := rfl
    rw [hstep, ih, scenarioStep_closed cfg a (t + k) _ h]

lemma recordAt_balance (cfg : SimConfig) (a : Bool) (t : ℕ) :
    (recordAt cfg a t).balance = (scenarioStateAt cfg a (t + 1)).balance := by
  rw [recordAt]
  have hstep : scenarioStateAt cfg a (t + 1) =
      (scenarioStep cfg a t (scenarioStateAt cfg a t)).1 := rfl
  rw [hstep]
  by_cases hs : (scenarioStateAt cfg a t).status = .accruing
  · rw [scenarioStep_accruing cfg a t _ hs]
  · rw [scenarioStep_closed cfg a t _ hs]

lemma balance_evolution (cfg : SimConfig) (a : Bool) (n : ℕ) :
    (scenarioStateAt cfg a (n + 1)).balance =
      (scenarioStateAt cfg a n).balance + (recordAt cfg a n).interest
        - (recordAt cfg a n).salaryRepayment - (recordAt cfg a n).extraRepayment
        - (recordAt cfg a n).instantApplied := by
  have hstep : scenarioStateAt cfg a (n + 1) =
      (scenarioStep cfg a n (scenarioStateAt cfg a n)).1 := rfl
  rw [recordAt, hstep]
  by_cases hs : (scenarioStateAt cfg a n).status = .accruing
  · rw [scenarioStep_accruing cfg a n _ hs]
    rw [stepNewBalance, stepBal1]
  · rw [scenarioStep_closed cfg a n _ hs]
    ring

/-- C10: the instant lump sum reduces the active balance but is not part
of the salary-repayment or extra-repayment columns: over any first n
periods the active closing balance equals the initial balance plus all
accrued interest minus the sum of the two repayment columns minus,
separately, the applied instant repayments, so a caller totalling the
active repayments must add the instant repayment on top of the column
sums; and row t of the returned series is exactly the pair of per-period
records. -/
theorem instant_repayment_separate (cfg : SimConfig) (n t : ℕ) (ht : t < cfg.horizon) :
    (scenarioStateAt cfg true n).balance =
      cfg.initialBalance
        + (∑ u in Finset.range n, (recordAt cfg true u).interest)
        - (∑ u in Finset.range n,
            ((recordAt cfg true u).salaryRepayment + (recordAt cfg true u).extraRepayment))
        - (∑ u in Finset.range n, (recordAt cfg true u).instantApplied) ∧
    (simulate_repayment cfg)[t]? = some ⟨recordAt cfg true t, recordAt cfg false t⟩ := by
  constructor
  · induction n with
    | zero => simp [scenarioStateAt]
    | succ n ih =>
      rw [balance_evolution cfg true n, ih]
      rw [Finset.sum_range_succ, Finset.sum_range_succ, Finset.sum_range_succ]
      ring
  · rw [simulate_repayment, List.getElem?_map, List.getElem?_range ht]
    rfl

/-- C3: in every period of every run, for either scenario, the repayment
actually applied never exceeds the opening balance plus the accrued
interest of the period, the recorded closing balance is never negative,
a closed scenario keeps its terminal state for every remaining period,
and the returned series carries both scenarios in each of its exactly
horizon-many rows. -/
theorem simulator_invariants (cfg : SimConfig) (a : Bool) (t k : ℕ)
    (h0 : 0 ≤ cfg.initialBalance)
    (hr : ∀ u, -1 ≤ cfg.interestRate u (cfg.income u)) :
    (recordAt cfg a t).salaryRepayment + (recordAt cfg a t).extraRepayment +
        (recordAt cfg a t).instantApplied ≤
      (scenarioStateAt cfg a t).balance + (recordAt cfg a t).interest ∧
    0 ≤ (recordAt cfg a t).balance ∧
    ((scenarioStateAt cfg a t).status ≠ .accruing →
      scenarioStateAt cfg a (t + k) = scenarioStateAt cfg a t) ∧
    (simulate_repayment cfg).length = cfg.horizon := by
  have hbal : ∀ u, 0 ≤ (scenarioStateAt cfg a u).balance :=
    scenarioStateAt_balance_nonneg cfg a h0 hr
  refine ⟨?_, ?_, fun hcl => scenarioStateAt_absorb cfg a t hcl k, ?_⟩
  · rw [recordAt]
    by_cases hs : (scenarioStateAt cfg a t).status = .accruing
    · rw [scenarioStep_accruing cfg a t _ hs]
      have hb1 : 0 ≤ stepBal1 cfg t (scenarioStateAt cfg a t) :=
        stepBal1_nonneg cfg t _ (hbal t) (hr t)
      have hnn : 0 ≤ stepNewBalance cfg a t (scenarioStateAt cfg a t) :=
        stepNewBalance_nonneg cfg a t _ hb1
      rw [stepNewBalance] at hnn
      have hb1eq : stepBal1 cfg t (scenarioStateAt cfg a t) =
          (scenarioStateAt cfg a t).balance + stepInterest cfg t (scenarioStateAt cfg a t) :=
        rfl
      simp only []
      linarith
    · rw [scenarioStep_closed cfg a t _ hs]
      simp only []
      linarith [hbal t]
  · rw [recordAt_balance]
    exact hbal (t + 1)
  · rw [simulate_repayment, List.length_map, List.length_range]

/-- Modelled from the spec: a small run that pays off early, used to
exhibit the invariants concretely: balance 10, no interest, no statutory
repayment, extra repayment 20 per period. -/
def invariantExampleConfig : SimConfig :=
  ⟨10, 0, 0, 360, fun _ _ => 0, fun _ => 0, fun _ => 20, 0, 0⟩

/-- C3 witness: the invariants instantiated at period 1 of the small
early-payoff run, two periods after closing. -/
theorem simulator_invariants_witness :
    (recordAt invariantExampleConfig true 1).salaryRepayment +
        (recordAt invariantExampleConfig true 1).extraRepayment +
        (recordAt invariantExampleConfig true 1).instantApplied ≤
      (scenarioStateAt invariantExampleConfig true 1).balance +
        (recordAt invariantExampleConfig true 1).interest ∧
    0 ≤ (recordAt invariantExampleConfig true 1).balance ∧
    ((scenarioStateAt invariantExampleConfig true 1).status ≠ .accruing →
      scenarioStateAt invariantExampleConfig true (1 + 2) =
        scenarioStateAt invariantExampleConfig true 1) ∧
    (simulate_repayment invariantExampleConfig).length = invariantExampleConfig.horizon :=
  simulator_invariants invariantExampleConfig true 1 2 (by norm_num [invariantExampleConfig])
    (fun u => by norm_num [invariantExampleConfig])

/-- Modelled from the spec: a small run with a positive instant repayment
at period zero, used to exhibit that the lump sum is accounted separately
from the repayment columns. -/
def instantExampleConfig : SimConfig :=
  ⟨100, 0, 0, 5, fun _ _ => 0, fun _ => 0, fun _ => 0, 30, 0⟩

/-- C10 witness: conservation of the active balance over the first two
periods of a run with an instant repayment of 30, and the form of row 1
of the returned series. -/
theorem instant_repayment_separate_witness :
    (scenarioStateAt instantExampleConfig true 2).balance =
      instantExampleConfig.initialBalance
        + (∑ u in Finset.range 2, (recordAt instantExampleConfig true u).interest)
        - (∑ u in Finset.range 2,
            ((recordAt instantExampleConfig true u).salaryRepayment +
              (recordAt instantExampleConfig true u).extraRepayment))
        - (∑ u in Finset.range 2, (recordAt instantExampleConfig true u).instantApplied) ∧
    (simulate_repayment instantExampleConfig)[1]? =
      some ⟨recordAt instantExampleConfig true 1, recordAt instantExampleConfig false 1⟩ :=
  instant_repayment_separate instantExampleConfig 2 1 (by norm_num [instantExampleConfig])

lemma statutoryRepayment_zero (cfg : SimConfig) (u : ℕ)
    (hinc : cfg.income u ≤ cfg.planThreshold) : statutoryRepayment cfg u = 0 := by
  rw [statutoryRepayment, max_eq_left (by linarith : cfg.income u - cfg.planThreshold ≤ 0)]
  ring

lemma step_zero_repayments (cfg : SimConfig) (a : Bool) (u : ℕ) (s : ScenarioState)
    (hb1 : 0 ≤ stepBal1 cfg u s)
    (hinc : cfg.income u ≤ cfg.planThreshold)
    (hextra : cfg.extraRepayment u = 0)
    (hinst : cfg.instantRepayment = 0) :
    stepNewBalance cfg a u s = stepBal1 cfg u s := by
  have hsal : stepSalaryApplied cfg u s = 0 := by
    rw [stepSalaryApplied, statutoryRepayment_zero cfg u hinc]
    exact min_eq_left hb1
  have hae : activeExtra cfg a u = 0 := by
    cases a <;> simp [activeExtra, hextra]
  have hext : stepExtraApplied cfg a u s = 0 := by
    rw [stepExtraApplied, hae, hsal, sub_zero]
    exact min_eq_left hb1
  have hai : activeInstant cfg a u = 0 := by
    cases a <;> simp [activeInstant, hinst]
  have hin : stepInstantApplied cfg a u s = 0 := by
    rw [stepInstantApplied, hai, hsal, hext, sub_zero, sub_zero]
    exact min_eq_left hb1
  rw [stepNewBalance, hsal, hext, hin]
  ring

/-- C4: when projected income never exceeds the plan threshold and there
are no extra or instant repayments, the scenario stays accruing with
balance compounding at the constant period rate for every period before
the horizon, and reaches the written-off state at exactly the horizon
with balance equal to the initial balance times (1 + rate) to the power
of the horizon. -/
theorem write_off_at_horizon (cfg : SimConfig) (a : Bool) (r : ℚ) (t : ℕ)
    (hinit : 0 < cfg.initialBalance)
    (hr0 : 0 ≤ r)
    (hrate : ∀ u, cfg.interestRate u (cfg.income u) = r)
    (hinc : ∀ u, cfg.income u ≤ cfg.planThreshold)
    (hextra : ∀ u, cfg.extraRepayment u = 0)
    (hinst : cfg.instantRepayment = 0)
    (hhor : 0 < cfg.horizon)
    (ht : t ≤ cfg.horizon) :
    (scenarioStateAt cfg a t).balance = cfg.initialBalance * (1 + r) ^ t ∧
    (scenarioStateAt cfg a t).status =
      (if t < cfg.horizon then .accruing else .writtenOff) := by
  induction t with
  | zero =>
    constructor
    · rw [pow_zero, mul_one]
      rfl
    · rw [if_pos hhor]
      rfl
  | succ t ih =>
    have htle : t ≤ cfg.horizon := le_of_lt (Nat.lt_of_succ_le ht)
    have htlt : t < cfg.horizon := Nat.lt_of_succ_le ht
    obtain ⟨ihb, ihs⟩ := ih htle
    have hs : (scenarioStateAt cfg a t).status = .accruing := by
      rw [ihs, if_pos htlt]
    have hpos : 0 < (scenarioStateAt cfg a t).balance := by
      rw [ihb]
      positivity
    have hb1 : stepBal1 cfg t (scenarioStateAt cfg a t) =
        (scenarioStateAt cfg a t).balance * (1 + r) := by
      rw [stepBal1, stepInterest, hrate t]
      ring
    have hb1pos : 0 < stepBal1 cfg t (scenarioStateAt cfg a t) := by
      rw [hb1]
      positivity
    have hnew : stepNewBalance cfg a t (scenarioStateAt cfg a t) =
        stepBal1 cfg t (scenarioStateAt cfg a t) :=
      step_zero_repayments cfg a t _ (le_of_lt hb1pos) (hinc t) (hextra t) hinst
    have hstep : scenarioStateAt cfg a (t + 1) =
        (scenarioStep cfg a t (scenarioStateAt cfg a t)).1 := rfl
    rw [hstep, scenarioStep_accruing cfg a t _ hs]
    constructor
    · rw [hnew, hb1, ihb]
      ring
    · rw [stepNewStatus, if_neg (by rw [hnew]; exact ne_of_gt hb1pos)]
      rcases Nat.lt_or_ge (t + 1) cfg.horizon with hlt | hge
      · rw [if_neg (by omega), if_pos hlt]
      · rw [if_pos (by omega), if_neg (by omega)]

/-- Modelled from the spec: a run whose income never exceeds the
threshold: balance 100, monthly rate one tenth, horizon 12, income zero,
no repayments of any kind. -/
def writeOffExampleConfig : SimConfig :=
  ⟨100, 0, 9/100, 12, fun _ _ => 1/10, fun _ => 0, fun _ => 0, 0, 0⟩

/-- C4 witness: the write-off run at its horizon of 12 periods, with the
compounded balance. -/
theorem write_off_at_horizon_witness :
    (scenarioStateAt writeOffExampleConfig true 12).balance =
      writeOffExampleConfig.initialBalance * (1 + 1/10) ^ 12 ∧
    (scenarioStateAt writeOffExampleConfig true 12).status =
      (if 12 < writeOffExampleConfig.horizon then .accruing else .writtenOff) :=
  write_off_at_horizon writeOffExampleConfig true (1/10) 12
    (by norm_num [writeOffExampleConfig])
    (by norm_num)
    (fun u => by norm_num [writeOffExampleConfig])
    (fun u => by norm_num [writeOffExampleConfig])
    (fun u => by norm_num [writeOffExampleConfig])
    (by norm_num [writeOffExampleConfig])
    (by norm_num [writeOffExampleConfig])
    (by norm_num [writeOffExampleConfig])

lemma stepNewBalance_le_max (cfg : SimConfig) (a : Bool) (u : ℕ) (s : ScenarioState)
    (he : 0 ≤ activeExtra cfg a u) (hi : 0 ≤ activeInstant cfg a u) :
    stepNewBalance cfg a u s ≤
      max (stepBal1 cfg u s - periodRepaymentPolicy cfg a u) 0 := by
  have hpol : periodRepaymentPolicy cfg a u =
      statutoryRepayment cfg u + activeExtra cfg a u + activeInstant cfg a u := rfl
  have hsal : stepSalaryApplied cfg u s =
      min (statutoryRepayment cfg u) (stepBal1 cfg u s) := rfl
  have hext : stepExtraApplied cfg a u s =
      min (activeExtra cfg a u) (stepBal1 cfg u s - stepSalaryApplied cfg u s) := rfl
  have hins : stepInstantApplied cfg a u s =
      min (activeInstant cfg a u)
        (stepBal1 cfg u s - stepSalaryApplied cfg u s - stepExtraApplied cfg a u s) := rfl
  rw [stepNewBalance, hpol]
  rcases le_total (stepBal1 cfg u s) (statutoryRepayment cfg u) with h1 | h1
  · have e1 : stepSalaryApplied cfg u s = stepBal1 cfg u s := by
      rw [hsal]
      exact min_eq_right h1
    have e2 : stepExtraApplied cfg a u s = 0 := by
      rw [hext, e1, sub_self]
      exact min_eq_right he
    have e3 : stepInstantApplied cfg a u s = 0 := by
      rw [hins, e1, e2, sub_self, sub_zero]
      exact min_eq_right hi
    rw [e1, e2, e3]
    have hm := le_max_right
      (stepBal1 cfg u s -
        (statutoryRepayment cfg u + activeExtra cfg a u + activeInstant cfg a u)) (0:ℚ)
    linarith
  · have e1 : stepSalaryApplied cfg u s = statutoryRepayment cfg u := by
      rw [hsal]
      exact min_eq_left h1
    rcases le_total (stepBal1 cfg u s - statutoryRepayment cfg u) (activeExtra cfg a u)
      with h2 | h2
    · have e2 : stepExtraApplied cfg a u s =
          stepBal1 cfg u s - statutoryRepayment cfg u := by
        rw [hext, e1]
        exact min_eq_right h2
      have e3 : stepInstantApplied cfg a u s = 0 := by
        rw [hins, e1, e2]
        have hz : stepBal1 cfg u s - statutoryRepayment cfg u -
            (stepBal1 cfg u s - statutoryRepayment cfg u) = 0 := by ring
        rw [hz]
        exact min_eq_right hi
      rw [e1, e2, e3]
      have hm := le_max_right
        (stepBal1 cfg u s -
          (statutoryRepayment cfg u + activeExtra cfg a u + activeInstant cfg a u)) (0:ℚ)
      linarith
    · have e2 : stepExtraApplied cfg a u s = activeExtra cfg a u := by
        rw [hext, e1]
        exact min_eq_left h2
      rcases le_total
        (stepBal1 cfg u s - statutoryRepayment cfg u - activeExtra cfg a u)
        (activeInstant cfg a u) with h3 | h3
      · have e3 : stepInstantApplied cfg a u s =
            stepBal1 cfg u s - statutoryRepayment cfg u - activeExtra cfg a u := by
          rw [hins, e1, e2]
          exact min_eq_right h3
        rw [e1, e2, e3]
        have hm := le_max_right
          (stepBal1 cfg u s -
            (statutoryRepayment cfg u + activeExtra cfg a u + activeInstant cfg a u)) (0:ℚ)
        linarith
      · have e3 : stepInstantApplied cfg a u s = activeInstant cfg a u := by
          rw [hins, e1, e2]
          exact min_eq_left h3
        rw [e1, e2, e3]
        have hm := le_max_left
          (stepBal1 cfg u s -
            (statutoryRepayment cfg u + activeExtra cfg a u + activeInstant cfg a u)) (0:ℚ)
        linarith

lemma not_accruing_after_horizon (cfg : SimConfig) (a : Bool) (hh : 0 < cfg.horizon) :
    ∀ t, cfg.horizon ≤ t → (scenarioStateAt cfg a t).status ≠ .accruing := by
  have hbase : (scenarioStateAt cfg a cfg.horizon).status ≠ .accruing := by
    obtain ⟨u, hu⟩ : ∃ u, cfg.horizon = u + 1 := ⟨cfg.horizon - 1, by omega⟩
    rw [hu]
    have hstep : scenarioStateAt cfg a (u + 1) =
        (scenarioStep cfg a u (scenarioStateAt cfg a u)).1 := rfl
    rw [hstep]
    by_cases hs : (scenarioStateAt cfg a u).status = .accruing
    · rw [scenarioStep_accruing cfg a u _ hs]
      show stepNewStatus cfg a u (scenarioStateAt cfg a u) ≠ .accruing
      rw [stepNewStatus]
      by_cases hz : stepNewBalance cfg a u (scenarioStateAt cfg a u) = 0
      · rw [if_pos hz]
        decide
      · rw [if_neg hz, if_pos (by omega : cfg.horizon ≤ u + 1)]
        decide
    · rw [scenarioStep_closed cfg a u _ hs]
      exact hs
  intro t ht
  obtain ⟨k, hk⟩ := Nat.exists_eq_add_of_le ht
  rw [hk, scenarioStateAt_absorb cfg a cfg.horizon hbase k]
  exact hbase

lemma paid_off_invariant (cfg : SimConfig) (a : Bool) (m : ℚ) (N : ℕ)
    (hm : 0 < m) (hinit : 0 < cfg.initialBalance)
    (hr : ∀ u, cfg.interestRate u (cfg.income u) = 0)
    (hpol : ∀ u, m ≤ periodRepaymentPolicy cfg a u)
    (hex : ∀ u, 0 ≤ cfg.extraRepayment u)
    (hins : 0 ≤ cfg.instantRepayment)
    (hNh : N ≤ cfg.horizon)
    (hNm : cfg.initialBalance ≤ (N : ℚ) * m) :
    ∀ t, t ≤ N →
      (scenarioStateAt cfg a t).status = .paidOff ∨
      ((scenarioStateAt cfg a t).status = .accruing ∧
       0 < (scenarioStateAt cfg a t).balance ∧
       (scenarioStateAt cfg a t).balance ≤ cfg.initialBalance - (t : ℚ) * m) := by
  have heA : ∀ u, 0 ≤ activeExtra cfg a u := by
    intro u
    cases a with
    | false => simp [activeExtra]
    | true => simpa [activeExtra] using hex u
  have hiA : ∀ u, 0 ≤ activeInstant cfg a u := by
    intro u
    cases a with
    | false => simp [activeInstant]
    | true =>
      by_cases htp : u = cfg.instantPeriod <;> simp [activeInstant, htp, hins]
  intro t
  induction t with
  | zero =>
    intro h0
    right
    refine ⟨rfl, hinit, ?_⟩
    show cfg.initialBalance ≤ cfg.initialBalance - ((0 : ℕ) : ℚ) * m
    norm_num
  | succ t ih =>
    intro ht1
    have htN : t ≤ N := by omega
    rcases ih htN with hpaid | ⟨hacc, hbpos, hble⟩
    · left
      have hcl : (scenarioStateAt cfg a t).status ≠ .accruing := by
        rw [hpaid]
        decide
      have habs : scenarioStateAt cfg a (t + 1) = scenarioStateAt cfg a t := by
        have hstep : scenarioStateAt cfg a (t + 1) =
            (scenarioStep cfg a t (scenarioStateAt cfg a t)).1 := rfl
        rw [hstep, scenarioStep_closed cfg a t _ hcl]
      rw [habs]
      exact hpaid
    · have hb1 : stepBal1 cfg t (scenarioStateAt cfg a t) =
          (scenarioStateAt cfg a t).balance := by
        rw [stepBal1, stepInterest, hr t, mul_zero, add_zero]
      have hb1nn : 0 ≤ stepBal1 cfg t (scenarioStateAt cfg a t) := by
        rw [hb1]
        linarith
      have hnn : 0 ≤ stepNewBalance cfg a t (scenarioStateAt cfg a t) :=
        stepNewBalance_nonneg cfg a t _ hb1nn
      have hle : stepNewBalance cfg a t (scenarioStateAt cfg a t) ≤
          max ((scenarioStateAt cfg a t).balance - m) 0 := by
        have h0 := stepNewBalance_le_max cfg a t (scenarioStateAt cfg a t)
          (heA t) (hiA t)
        rw [hb1] at h0
        exact le_trans h0 (max_le_max (by linarith [hpol t]) le_rfl)
      have hstep : scenarioStateAt cfg a (t + 1) =
          (scenarioStep cfg a t (scenarioStateAt cfg a t)).1 := rfl
      rw [hstep, scenarioStep_accruing cfg a t _ hacc]
      by_cases hz : stepNewBalance cfg a t (scenarioStateAt cfg a t) = 0
      · left
        show stepNewStatus cfg a t (scenarioStateAt cfg a t) = .paidOff
        rw [stepNewStatus, if_pos hz]
      · have hpos2 : 0 < stepNewBalance cfg a t (scenarioStateAt cfg a t) :=
          lt_of_le_of_ne hnn (Ne.symm hz)
        have hnothor : ¬ cfg.horizon ≤ t + 1 := by
          intro hhor2
          have htn : t + 1 = N := by omega
          have hNc : ((N : ℕ) : ℚ) = (t : ℚ) + 1 := by
            rw [← htn]
            push_cast
            ring
          have hbm : (scenarioStateAt cfg a t).balance - m ≤ 0 := by
            rw [hNc] at hNm
            linarith
          rw [max_eq_right hbm] at hle
          linarith
        right
        refine ⟨?_, hpos2, ?_⟩
        · show stepNewStatus cfg a t (scenarioStateAt cfg a t) = .accruing
          rw [stepNewStatus, if_neg hz, if_neg hnothor]
        · show stepNewBalance cfg a t (scenarioStateAt cfg a t) ≤
            cfg.initialBalance - ((t + 1 : ℕ) : ℚ) * m
          rcases le_total ((scenarioStateAt cfg a t).balance - m) 0 with hbm | hbm
          · rw [max_eq_right hbm] at hle
            linarith
          · rw [max_eq_left hbm] at hle
            push_cast
            linarith

/-- C5: with zero interest every period, a per-period repayment policy
bounded below by m greater than zero, and the ceiling of the initial
balance over m within the horizon, the active-or-passive scenario is paid
off after at most that ceiling number of periods; and in general no
scenario of any run is still accruing at or after the horizon. -/
theorem amortization_terminates (cfg cfg2 : SimConfig) (a a2 : Bool) (m : ℚ) (t : ℕ)
    (hm : 0 < m) (hinit : 0 < cfg.initialBalance)
    (hr : ∀ u, cfg.interestRate u (cfg.income u) = 0)
    (hpol : ∀ u, m ≤ periodRepaymentPolicy cfg a u)
    (hex : ∀ u, 0 ≤ cfg.extraRepayment u)
    (hins : 0 ≤ cfg.instantRepayment)
    (hNh : (⌈cfg.initialBalance / m⌉).toNat ≤ cfg.horizon)
    (hh2 : 0 < cfg2.horizon) (ht : cfg2.horizon ≤ t) :
    (scenarioStateAt cfg a (⌈cfg.initialBalance / m⌉).toNat).status = .paidOff ∧
    (scenarioStateAt cfg2 a2 t).status ≠ .accruing := by
  constructor
  · have hceilpos : 0 < ⌈cfg.initialBalance / m⌉ :=
      Int.ceil_pos.mpr (div_pos hinit hm)
    have hNZ : ((⌈cfg.initialBalance / m⌉).toNat : ℤ) = ⌈cfg.initialBalance / m⌉ :=
      Int.toNat_of_nonneg (le_of_lt hceilpos)
    have hNm : cfg.initialBalance ≤ ((⌈cfg.initialBalance / m⌉).toNat : ℚ) * m := by
      have h1 : cfg.initialBalance / m ≤ ((⌈cfg.initialBalance / m⌉ : ℤ) : ℚ) :=
        Int.le_ceil _
      have h2 : (((⌈cfg.initialBalance / m⌉).toNat : ℕ) : ℚ) =
          ((⌈cfg.initialBalance / m⌉ : ℤ) : ℚ) := by
        exact_mod_cast congrArg (fun z : ℤ => (z : ℚ)) hNZ
      rw [div_le_iff₀ hm] at h1
      rw [h2]
      exact h1
    rcases paid_off_invariant cfg a m (⌈cfg.initialBalance / m⌉).toNat hm hinit hr
      hpol hex hins hNh hNm (⌈cfg.initialBalance / m⌉).toNat le_rfl with hp | ⟨_, hbpos, hble⟩
    · exact hp
    · exfalso
      linarith
  · exact not_accruing_after_horizon cfg2 a2 hh2 t ht

/-- Modelled from the spec: a zero-interest run repaying 10 per period
from a balance of 100 over a horizon of 10, for the termination bound. -/
def ceilingExampleConfig : SimConfig :=
  ⟨100, 0, 0, 10, fun _ _ => 0, fun _ => 0, fun _ => 10, 0, 0⟩

/-- C5 witness: the zero-interest run is paid off at the ceiling of
100 over 10, namely period 10, and is no longer accruing at its
horizon. -/
theorem amortization_terminates_witness :
    (scenarioStateAt ceilingExampleConfig true
      (⌈ceilingExampleConfig.initialBalance / 10⌉).toNat).status = .paidOff ∧
    (scenarioStateAt ceilingExampleConfig true 10).status ≠ .accruing := by
  refine amortization_terminates ceilingExampleConfig ceilingExampleConfig true true 10 10
    (by norm_num) (by norm_num [ceilingExampleConfig]) (fun u => rfl)
    (fun u => ?_) (fun u => by norm_num [ceilingExampleConfig])
    (by norm_num [ceilingExampleConfig]) ?_
    (by norm_num [ceilingExampleConfig]) (by norm_num [ceilingExampleConfig])
  · simp [periodRepaymentPolicy, statutoryRepayment, ceilingExampleConfig]
  · have hc : (⌈ceilingExampleConfig.initialBalance / (10:ℚ)⌉) = 10 := by
      norm_num [ceilingExampleConfig]
    rw [hc]
    norm_num [ceilingExampleConfig]
